import Mathlib

/-!
Verification of the per-image, per-lake raster-to-statistics aggregation
pipeline of the planetscope_lake_ice repository.

The Python sources are shallowly embedded:

* `Scripts/mask_clouds_and_classify_ice.py` — `create_mask_rasters`
  (lake mask, cloud mask, `apply_masks`) and `classify_pixels`;
* `Scripts/calculate_ice_cover_statistics_per_lake.py` —
  `calculate_lake_statistics` (per-lake statistics, the `total_pixels`
  consistency check, image-timestamp parsing) and its `add_observation`
  (the variable-length NetCDF store);
* `Scripts/add_observation.py` — `update_lake_observation`
  (the flat-table NetCDF store with the idempotent upsert);
* `Scripts/clip_ALPOD_to_SR_extent.py` — `clip_vector_to_raster`
  (the containment filter of the lake catalog against the valid extent).

Rasters are embedded per pixel as functions from pixel coordinates; machine
floats are idealised as rationals (the code only compares and forms exact
ratios); NetCDF variable-length and flat tables are embedded as Lean lists.
-/

/-- Pixel coordinates `(row, column)` of a raster grid. -/
abbrev Pix := Nat × Nat

/-! ### MaskCompositor — `create_mask_rasters` in mask_clouds_and_classify_ice.py

`lake_mask = (lake_id_raster > 0)`; the cloud mask starts all-ones and is
AND-reduced with `(udm.read(band_idx) == 0)` over every configured band;
`apply_masks` keeps the band value where both masks hold and writes the
sentinel `-9999` elsewhere. -/

/-- `lake_mask = (lake_id_raster > 0).astype('uint8')`. -/
def lake_mask (lakeId : Pix → Nat) : Pix → Bool :=
  fun p => decide (0 < lakeId p)

/-- `cloud_mask &= (udm.read(band_idx) == 0)` folded over the configured
`mask_bands`, starting from all ones: clear exactly when every configured
UDM band reads 0 at the pixel. -/
def cloud_mask (udmBands : List (Pix → Int)) : Pix → Bool :=
  fun p => udmBands.all (fun b => b p == 0)

/-- The numba kernel `apply_masks`: `output` is prefilled with `-9999` and a
pixel keeps `band_data[i, j]` exactly when `lake_mask[i, j] and
cloud_mask[i, j]`. -/
def apply_masks (band : Pix → ℚ) (lakeM cloudM : Pix → Bool) : Pix → ℚ :=
  fun p => if lakeM p && cloudM p then band p else -9999

/-- The usable-pixel mask the code implements: the conjunction of the lake
mask and the cloud mask (this is the condition `apply_masks` tests). -/
def usableMask (lakeId : Pix → Nat) (udmBands : List (Pix → Int)) : Pix → Bool :=
  fun p => lake_mask lakeId p && cloud_mask udmBands p

/-- The usable-pixel predicate as the specification words it: inside a lake,
no configured flag set, and the source value differs from the source band's
nodata value. -/
def specUsable (lakeId : Pix → Nat) (udmBands : List (Pix → Int))
    (band : Pix → ℚ) (srcNodata : ℚ) (p : Pix) : Prop :=
  lakeId p ≠ 0 ∧ (∀ b ∈ udmBands, b p = 0) ∧ band p ≠ srcNodata

/-! ### ThresholdClassifier — `classify_pixels` in mask_clouds_and_classify_ice.py

For each pixel whose value is not the sentinel `-9999`, scan the configured
ranges in order and assign `class_idx + 1` for the first range with
`low <= val < high`, breaking out of the loop; otherwise the output keeps its
prefill `-9999`. -/

/-- Index of the first threshold range `(low, high)` with `low ≤ v < high`,
scanning in configured order (the `for class_idx in range(n_classes)` loop
with `break`). -/
def firstMatch (ts : List (ℚ × ℚ)) (v : ℚ) : Option Nat :=
  match ts with
  | [] => none
  | (lo, hi) :: rest =>
    if lo ≤ v ∧ v < hi then some 0 else (firstMatch rest v).map (· + 1)

/-- Per-pixel body of `classify_pixels`: the output is prefilled `-9999`;
a pixel with `val != -9999` gets `class_idx + 1` for the first matching
range and stays `-9999` when no range matches. -/
def classifyVal (ts : List (ℚ × ℚ)) (v : ℚ) : Int :=
  if v = -9999 then -9999
  else
    match firstMatch ts v with
    | some i => (i : Int) + 1
    | none => -9999

/-- `classify_pixels` applied to the masked band (the composition the
pipeline runs: `classify_ice_cover` reads the raster `create_mask_rasters`
wrote). -/
def classifiedPix (ts : List (ℚ × ℚ)) (band : Pix → ℚ)
    (lakeId : Pix → Nat) (udmBands : List (Pix → Int)) : Pix → Int :=
  fun p => classifyVal ts (apply_masks band (lake_mask lakeId) (cloud_mask udmBands) p)

/-! Characterisation of `firstMatch`. -/

/-- A value is in range `i` of the threshold list. -/
def inRange (ts : List (ℚ × ℚ)) (i : Nat) (v : ℚ) : Prop :=
  ∃ h : i < ts.length, (ts.get ⟨i, h⟩).1 ≤ v ∧ v < (ts.get ⟨i, h⟩).2

theorem firstMatch_spec (ts : List (ℚ × ℚ)) (v : ℚ) (i : Nat) :
    firstMatch ts v = some i ↔ inRange ts i v ∧ ∀ j, j < i → ¬ inRange ts j v := by
  induction ts generalizing i with
  | nil =>
    simp [firstMatch, inRange]
  | cons hd tl ih =>
    obtain ⟨lo, hi⟩ := hd
    by_cases h : lo ≤ v ∧ v < hi
    · simp only [firstMatch, if_pos h]
      constructor
      · rintro h0
        injection h0 with h0
        subst h0
        exact ⟨⟨Nat.succ_pos _, h.1, h.2⟩, fun j hj => absurd hj (Nat.not_lt_zero j)⟩
      · rintro ⟨hin, hmin⟩
        rcases i with _ | i
        · rfl
        · exact absurd ⟨Nat.succ_pos _, h.1, h.2⟩ (hmin 0 (Nat.succ_pos i))
    · simp only [firstMatch, if_neg h]
      rcases i with _ | i
      · constructor
        · intro hc
          simp at hc
        · rintro ⟨⟨_, hin⟩, _⟩
          exact absurd hin h
      · constructor
        · intro hc
          simp only [Option.map_eq_some'] at hc
          obtain ⟨j, hj, hji⟩ := hc
          have hji' : j = i := by omega
          rw [hji'] at hj
          obtain ⟨⟨hlen, hin⟩, hmin⟩ := (ih i).mp hj
          refine ⟨⟨Nat.succ_lt_succ hlen, hin⟩, ?_⟩
          rintro (_ | j) hjlt
          · rintro ⟨_, hin0⟩
            exact h hin0
          · rintro ⟨hl, hin0⟩
            exact hmin j (Nat.lt_of_succ_lt_succ hjlt) ⟨Nat.lt_of_succ_lt_succ hl, hin0⟩
        · rintro ⟨⟨hlen, hin⟩, hmin⟩
          have : firstMatch tl v = some i := by
            refine (ih i).mpr ⟨⟨Nat.lt_of_succ_lt_succ hlen, hin⟩, ?_⟩
            intro j hji
            rintro ⟨hl, hin0⟩
            exact hmin (j + 1) (Nat.succ_lt_succ hji) ⟨Nat.succ_lt_succ hl, hin0⟩
          simp [this]

theorem firstMatch_none (ts : List (ℚ × ℚ)) (v : ℚ) :
    firstMatch ts v = none ↔ ∀ i, ¬ inRange ts i v := by
  induction ts with
  | nil =>
    simp [firstMatch, inRange]
  | cons hd tl ih =>
    obtain ⟨lo, hi⟩ := hd
    by_cases h : lo ≤ v ∧ v < hi
    · simp only [firstMatch, if_pos h]
      constructor
      · intro hc
        cases hc
      · intro hall
        exact absurd ⟨Nat.succ_pos _, h.1, h.2⟩ (hall 0)
    · simp only [firstMatch, if_neg h, Option.map_eq_none']
      rw [ih]
      constructor
      · intro hall i
        rcases i with _ | i
        · rintro ⟨_, hin⟩
          exact h hin
        · rintro ⟨hl, hin⟩
          exact hall i ⟨Nat.lt_of_succ_lt_succ hl, hin⟩
      · intro hall i
        rintro ⟨hl, hin⟩
        exact hall (i + 1) ⟨Nat.succ_lt_succ hl, hin⟩

/-- `firstMatch` only returns indices of configured ranges. -/
theorem firstMatch_lt_length (ts : List (ℚ × ℚ)) (v : ℚ) (i : Nat)
    (h : firstMatch ts v = some i) : i < ts.length := by
  obtain ⟨⟨hlen, -⟩, -⟩ := (firstMatch_spec ts v i).mp h
  exact hlen

/-! ### Concrete grids used for counterexamples and witnesses. -/

/-- A lake-ID raster putting every pixel inside lake 1. -/
def exLakeId : Pix → Nat := fun _ => 1

/-- A lake-ID raster with no lake anywhere. -/
def exLakeId0 : Pix → Nat := fun _ => 0

/-- One configured UDM mask band, everywhere clear (value 0). -/
def exUdm : List (Pix → Int) := [fun _ => 0]

/-- A source band whose value everywhere equals the nodata value 0. -/
def exBandNd : Pix → ℚ := fun _ => 0

/-- A source band with constant reflectance 1000. -/
def exBand1000 : Pix → ℚ := fun _ => 1000

/-- A source band with constant reflectance 20. -/
def exBand20 : Pix → ℚ := fun _ => 20

/-- Threshold ranges in configured order mirroring the repository's
`Ice/Snow/Water` configuration with finite bounds. -/
def exThresholds : List (ℚ × ℚ) := [(950, 3800), (3800, 100000), (-100000, 950)]

/-- A threshold configuration with a gap: only `[0, 10)` is classified. -/
def gapThresholds : List (ℚ × ℚ) := [(0, 10)]

/-- C3 counterexample: at a pixel inside a lake, with every configured UDM
band clear, whose source value equals the source band's nodata value 0, the
mask the code computes is `true` although the claim's conjunction is false
(the code never consults the source band's nodata value), and the pixel is
not overwritten with `-9999`. -/
theorem mask_compositor_nodata_counterexample :
    ¬ (usableMask exLakeId exUdm ((0, 0) : Pix) = true ↔
        specUsable exLakeId exUdm exBandNd 0 ((0, 0) : Pix)) ∧
    apply_masks exBandNd (lake_mask exLakeId) (cloud_mask exUdm) ((0, 0) : Pix) ≠ -9999 := by
  constructor
  · intro hiff
    have h1 : usableMask exLakeId exUdm ((0, 0) : Pix) = true := by decide
    obtain ⟨-, -, hnd⟩ := hiff.mp h1
    exact hnd rfl
  · decide

/-- C3 amended: the usable mask the compositor computes is true exactly when
the pixel lies inside some lake and every configured UDM mask band reads 0
there (the source band's nodata value is not consulted); every pixel failing
this conjunction is overwritten with `-9999`, every pixel passing it keeps
its source value. -/
theorem mask_compositor_usable_mask (band : Pix → ℚ) (lakeId : Pix → Nat)
    (udmBands : List (Pix → Int)) (p : Pix) :
    (usableMask lakeId udmBands p = true ↔
      (lakeId p ≠ 0 ∧ ∀ b ∈ udmBands, b p = 0)) ∧
    (usableMask lakeId udmBands p = false →
      apply_masks band (lake_mask lakeId) (cloud_mask udmBands) p = -9999) ∧
    (usableMask lakeId udmBands p = true →
      apply_masks band (lake_mask lakeId) (cloud_mask udmBands) p = band p) := by
  refine ⟨?_, ?_, ?_⟩
  · simp [usableMask, lake_mask, cloud_mask, List.all_eq_true, Nat.pos_iff_ne_zero]
  · intro h
    have h' : (lake_mask lakeId p && cloud_mask udmBands p) = false := h
    simp [apply_masks, h']
  · intro h
    have h' : (lake_mask lakeId p && cloud_mask udmBands p) = true := h
    simp [apply_masks, h']

/-- C3 witness: a pixel outside every lake is overwritten with `-9999`. -/
theorem mask_compositor_usable_mask_witness :
    apply_masks exBandNd (lake_mask exLakeId0) (cloud_mask exUdm) ((0, 0) : Pix) = -9999 :=
  (mask_compositor_usable_mask exBandNd exLakeId0 exUdm ((0, 0) : Pix)).2.1 (by decide)

/-- C4: on a usable pixel (value distinct from the sentinel `-9999`) the
classifier returns `i + 1` exactly when range `i` is the first configured
range containing the value; when no range contains the value the pixel is
left at the nodata sentinel; a non-usable pixel gets the nodata sentinel
regardless of the configured ranges. -/
theorem threshold_classifier_first_range (ts : List (ℚ × ℚ)) (v : ℚ) :
    (v ≠ -9999 → ∀ i : Nat,
      (classifyVal ts v = (i : Int) + 1 ↔
        inRange ts i v ∧ ∀ j, j < i → ¬ inRange ts j v)) ∧
    (v ≠ -9999 → (∀ i, ¬ inRange ts i v) → classifyVal ts v = -9999) ∧
    (v = -9999 → classifyVal ts v = -9999) := by
  refine ⟨?_, ?_, ?_⟩
  · intro hv i
    cases hfm : firstMatch ts v with
    | some k =>
      have hspec := firstMatch_spec ts v i
      rw [hfm] at hspec
      simp only [Option.some.injEq] at hspec
      rw [← hspec]
      simp only [classifyVal, if_neg hv, hfm]
      constructor
      · intro h
        omega
      · intro h
        omega
    | none =>
      have hall := (firstMatch_none ts v).mp hfm
      simp only [classifyVal, if_neg hv, hfm]
      constructor
      · intro h
        omega
      · rintro ⟨hin, -⟩
        exact absurd hin (hall i)
  · intro hv hall
    simp [classifyVal, if_neg hv, (firstMatch_none ts v).mpr hall]
  · intro hv
    simp [classifyVal, hv]

/-- C4 witness: reflectance 1000 lands in the first configured range and is
classified with code 1. -/
theorem threshold_classifier_first_range_witness :
    classifyVal exThresholds 1000 = ((0 : Nat) : Int) + 1 :=
  ((threshold_classifier_first_range exThresholds 1000).1 (by norm_num) 0).mpr
    ⟨⟨by norm_num [exThresholds], by norm_num [exThresholds]⟩,
      fun j hj => absurd hj (Nat.not_lt_zero j)⟩

/-- C5 counterexample: with the threshold configuration `[0, 10)` and a
usable lake pixel of reflectance 20, the usable mask is true while the
classified raster holds the nodata sentinel, refuting
`ClassifiedRaster[p] == nodata ⟺ UsableMask[p] == false`. -/
theorem partition_coverage_counterexample :
    usableMask exLakeId exUdm ((0, 0) : Pix) = true ∧
    classifiedPix gapThresholds exBand20 exLakeId exUdm ((0, 0) : Pix) = -9999 := by
  decide

/-- C5 amended: a classified pixel holds nodata exactly when it is not
usable, or its source value is the sentinel itself, or no configured range
contains its value; every usable pixel whose (non-sentinel) value lies in
some configured range gets exactly one class code in `1..K`, the 1-based
index of the first matching range. -/
theorem partition_coverage_amended (ts : List (ℚ × ℚ)) (band : Pix → ℚ)
    (lakeId : Pix → Nat) (udmBands : List (Pix → Int)) (p : Pix) :
    (classifiedPix ts band lakeId udmBands p = -9999 ↔
      (usableMask lakeId udmBands p = false ∨ band p = -9999 ∨
        firstMatch ts (band p) = none)) ∧
    (usableMask lakeId udmBands p = true → band p ≠ -9999 →
      ∀ i, firstMatch ts (band p) = some i →
        classifiedPix ts band lakeId udmBands p = (i : Int) + 1 ∧
        1 ≤ (i : Int) + 1 ∧ (i : Int) + 1 ≤ (ts.length : Int)) := by
  by_cases hu : usableMask lakeId udmBands p = true
  · have h' : (lake_mask lakeId p && cloud_mask udmBands p) = true := hu
    have hmask : apply_masks band (lake_mask lakeId) (cloud_mask udmBands) p = band p := by
      simp [apply_masks, h']
    have hcp : classifiedPix ts band lakeId udmBands p = classifyVal ts (band p) := by
      simp [classifiedPix, hmask]
    have hnotf : usableMask lakeId udmBands p ≠ false := by
      simp [hu]
    constructor
    · rw [hcp]
      by_cases hb : band p = -9999
      · simp [classifyVal, hb]
      · rcases hfm : firstMatch ts (band p) with - | k
        · simp [classifyVal, if_neg hb, hfm]
        · simp only [classifyVal, if_neg hb, hfm]
          constructor
          · intro h
            omega
          · rintro (h | h | h)
            · exact absurd h hnotf
            · exact absurd h hb
            · cases h
    · intro _ hb i hfm
      have hlen := firstMatch_lt_length ts (band p) i hfm
      rw [hcp]
      simp only [classifyVal, if_neg hb, hfm]
      refine ⟨trivial, by omega, by omega⟩
  · have hfalse : usableMask lakeId udmBands p = false := by
      revert hu
      cases usableMask lakeId udmBands p <;> simp
    have h' : (lake_mask lakeId p && cloud_mask udmBands p) = false := hfalse
    have hmask : apply_masks band (lake_mask lakeId) (cloud_mask udmBands) p = -9999 := by
      simp [apply_masks, h']
    constructor
    · have hcp : classifiedPix ts band lakeId udmBands p = -9999 := by
        simp [classifiedPix, hmask, classifyVal]
      simp [hcp, hfalse]
    · intro h
      exact absurd h hu

/-- C5 witness: with the repository's Ice/Snow/Water ranges, a usable pixel
of reflectance 1000 is classified with code 1, which lies in `1..K`. -/
theorem partition_coverage_amended_witness :
    classifiedPix exThresholds exBand1000 exLakeId exUdm ((0, 0) : Pix) = ((0 : Nat) : Int) + 1 ∧
    1 ≤ (((0 : Nat) : Int) + 1) ∧ ((0 : Nat) : Int) + 1 ≤ (exThresholds.length : Int) :=
  (partition_coverage_amended exThresholds exBand1000 exLakeId exUdm ((0, 0) : Pix)).2
    (by decide) (by norm_num [exBand1000]) 0 (by decide)

/-! ### StatisticsAggregator — `calculate_lake_statistics` in
calculate_ice_cover_statistics_per_lake.py

Per lake: `vals = classified_data[mask]` are the classified codes under the
lake mask; NoData and 0 values are dropped; `class_counts` counts the pixels
of each configured class code `i + 1` (codes mapped to the lowercased
configured class names, in configured order); `usable_pixels` is the sum of
the class counts; `clear_percent = usable / total * 100` when `total > 0`
else 0.  The per-class percent `cnt / usable * 100` (0 when `usable == 0`)
is computed inside that file's `add_observation`. -/

/-- `vals = vals[(vals != nodata) & (vals != 0)]` (or only `!= 0` when the
classified band carries no nodata value). -/
def filterVals (vals : List Int) (nodata : Option Int) : List Int :=
  match nodata with
  | some nd => vals.filter (fun v => v != nd && v != 0)
  | none => vals.filter (fun v => v != 0)

/-- `cls_name.lower()` (character-wise lowering of the configured class
name). -/
def lowerName (s : String) : String := String.mk (s.data.map Char.toLower)

/-- `class_counts = {name: np.count_nonzero(vals == code)}` with
`code_map = {i+1: cls_name.lower()}` built from the configured threshold
key order. -/
def classCounts (classNames : List String) (vals : List Int) : List (String × Nat) :=
  classNames.enum.map
    (fun ic => (lowerName ic.2, vals.countP (fun v => v == ((ic.1 : Int) + 1))))

/-- One lake's statistics record (the `stats` dict handed to
`add_observation`). -/
structure LakeStats where
  area : ℚ
  perimeter : ℚ
  total_pixels : Nat
  usable_pixels : Nat
  clear_percent : ℚ
  class_counts : List (String × Nat)
  deriving DecidableEq, Repr

/-- The per-lake statistics computation of `calculate_lake_statistics`
(lines 162–189): filter the classified values under the lake mask, count
each class, sum the counts into `usable_pixels`, and derive
`clear_percent`. -/
def calculate_stats (vals : List Int) (nodata : Option Int) (classNames : List String)
    (total_pix : Nat) (area perimeter : ℚ) : LakeStats :=
  let fv := filterVals vals nodata
  let cc := classCounts classNames fv
  let usable := (cc.map Prod.snd).sum
  { area := area
    perimeter := perimeter
    total_pixels := total_pix
    usable_pixels := usable
    clear_percent := if 0 < total_pix then (usable : ℚ) / (total_pix : ℚ) * 100 else 0
    class_counts := cc }

/-- The per-class percent computed in `add_observation`:
`pct = (cnt / stats['usable_pixels'] * 100) if stats['usable_pixels'] > 0 else 0`. -/
def classPercent (cnt : Nat) (usable : Nat) : ℚ :=
  if 0 < usable then (cnt : ℚ) / (usable : ℚ) * 100 else 0

/-- Summing `c / u * 100` over a list of counts whose sum is `u`. -/
theorem sum_map_div_mul (l : List Nat) (u : ℚ) :
    (l.map (fun (c : Nat) => (c : ℚ) / u * 100)).sum = ((l.sum : ℚ)) / u * 100 := by
  induction l with
  | nil => simp
  | cons c cs ih =>
    simp only [List.map_cons, List.sum_cons, ih, Nat.cast_add]
    ring

/-- Class percents over a list of counts with positive sum add up to 100. -/
theorem sum_classPercent (l : List Nat) (h : 0 < l.sum) :
    (l.map (fun c => classPercent c l.sum)).sum = 100 := by
  have hu : ((l.sum : ℚ)) ≠ 0 := by
    exact_mod_cast Nat.pos_iff_ne_zero.mp h
  have hrw : (l.map (fun c => classPercent c l.sum)).sum
      = (l.map (fun (c : Nat) => (c : ℚ) / ((l.sum : Nat) : ℚ) * 100)).sum := by
    refine congrArg List.sum (List.map_congr_left ?_)
    intro a _
    simp [classPercent, h]
  rw [hrw, sum_map_div_mul, div_mul_eq_mul_div, mul_comm, mul_div_assoc, div_self hu, mul_one]

/-- C6: for every LakeObservation the aggregator builds, the class counts
sum to `usable_pixels`; each class percent is `cnt / usable * 100` when
`usable > 0` (so the class percents sum to exactly 100) and exactly 0 when
`usable = 0`; and `clear_percent = usable / total * 100` when `total > 0`,
else 0. -/
theorem percent_round_trip (vals : List Int) (nodata : Option Int)
    (classNames : List String) (total_pix : Nat) (area perimeter : ℚ) :
    ((calculate_stats vals nodata classNames total_pix area perimeter).class_counts.map
        Prod.snd).sum =
      (calculate_stats vals nodata classNames total_pix area perimeter).usable_pixels ∧
    (0 < (calculate_stats vals nodata classNames total_pix area perimeter).usable_pixels →
      ((calculate_stats vals nodata classNames total_pix area perimeter).class_counts.map
        (fun c => classPercent c.2
          (calculate_stats vals nodata classNames total_pix area perimeter).usable_pixels)).sum
        = 100) ∧
    ((calculate_stats vals nodata classNames total_pix area perimeter).usable_pixels = 0 →
      ∀ c ∈ (calculate_stats vals nodata classNames total_pix area perimeter).class_counts,
        classPercent c.2
          (calculate_stats vals nodata classNames total_pix area perimeter).usable_pixels = 0) ∧
    (calculate_stats vals nodata classNames total_pix area perimeter).clear_percent =
      (if 0 < total_pix then
        ((calculate_stats vals nodata classNames total_pix area perimeter).usable_pixels : ℚ)
          / (total_pix : ℚ) * 100
      else 0) := by
  refine ⟨rfl, ?_, ?_, rfl⟩
  · intro hpos
    have hmm : (calculate_stats vals nodata classNames total_pix area perimeter).class_counts.map
        (fun c => classPercent c.2
          (calculate_stats vals nodata classNames total_pix area perimeter).usable_pixels)
        = ((calculate_stats vals nodata classNames total_pix area perimeter).class_counts.map
            Prod.snd).map
          (fun n => classPercent n
            (calculate_stats vals nodata classNames total_pix area perimeter).usable_pixels) := by
      rw [List.map_map]
      rfl
    rw [hmm]
    exact sum_classPercent _ hpos
  · intro hz c _
    simp [classPercent, hz]

/-- C6 witness: a concrete observation with three classified values has
positive `usable_pixels` and class percents summing to exactly 100. -/
theorem percent_round_trip_witness :
    0 < (calculate_stats [1, 1, 3, -9999, 0] (some (-9999)) ["Ice", "Snow", "Water"]
          4 0 0).usable_pixels ∧
    ((calculate_stats [1, 1, 3, -9999, 0] (some (-9999)) ["Ice", "Snow", "Water"]
          4 0 0).class_counts.map
      (fun c => classPercent c.2
        (calculate_stats [1, 1, 3, -9999, 0] (some (-9999)) ["Ice", "Snow", "Water"]
          4 0 0).usable_pixels)).sum = 100 :=
  ⟨by decide,
    (percent_round_trip [1, 1, 3, -9999, 0] (some (-9999)) ["Ice", "Snow", "Water"]
      4 0 0).2.1 (by decide)⟩

/-- C2 failing input: a lake with 25 total pixels and 5 usable classified
pixels has `clear_percent = 20`, below a configured minimum of 50, yet the
record the aggregator builds carries the normally computed class counts —
the ice count is 5, not 0.  `calculate_lake_statistics` never consults
`config['min_clear_percent']`; no code path zeroes the counts. -/
theorem low_clear_percent_not_zeroed :
    (calculate_stats [1, 1, 1, 1, 1] (some (-9999)) ["Ice", "Snow", "Water"]
        25 0 0).clear_percent = 20 ∧
    (calculate_stats [1, 1, 1, 1, 1] (some (-9999)) ["Ice", "Snow", "Water"]
        25 0 0).clear_percent < 50 ∧
    (calculate_stats [1, 1, 1, 1, 1] (some (-9999)) ["Ice", "Snow", "Water"]
        25 0 0).class_counts = [("ice", 5), ("snow", 0), ("water", 0)] ∧
    ¬ (∀ c ∈ (calculate_stats [1, 1, 1, 1, 1] (some (-9999)) ["Ice", "Snow", "Water"]
        25 0 0).class_counts, c.2 = 0) := by
  have h5 : (calculate_stats [1, 1, 1, 1, 1] (some (-9999)) ["Ice", "Snow", "Water"]
      25 0 0).usable_pixels = 5 := by decide
  have hclear : (calculate_stats [1, 1, 1, 1, 1] (some (-9999)) ["Ice", "Snow", "Water"]
      25 0 0).clear_percent = 20 := by
    show (if 0 < 25 then
      (((calculate_stats [1, 1, 1, 1, 1] (some (-9999)) ["Ice", "Snow", "Water"]
          25 0 0).usable_pixels : ℚ)) / ((25 : Nat) : ℚ) * 100 else 0) = 20
    rw [h5]
    norm_num
  refine ⟨hclear, by rw [hclear]; norm_num, by decide, ?_⟩
  intro hall
  have hice := hall ("ice", 5) (by decide)
  simp at hice

/-! ### LakeExtentFilter — `clip_vector_to_raster` in clip_ALPOD_to_SR_extent.py

The polygonised valid extent is transformed from the UDM's spatial
reference into the catalog's spatial reference (step 4 of the script) and
only then used in the containment query (steps 5–6:
`SELECT * ... WHERE ST_Within(geometry, ST_GeomFromText(...))`), which keeps
exactly the catalog features whose geometry lies within the transformed
extent.  Geometries are abstracted as their point sets and `ST_Within` as
set containment; the coordinate transformation is an arbitrary point map. -/

/-- One feature of the lake polygon catalog: `(geometry, id, area,
perimeter)`. -/
structure LakeFeature where
  fid : Int
  geom : Finset (Int × Int)
  area : ℚ
  perimeter : ℚ
  deriving DecidableEq

/-- The containment filter of `clip_vector_to_raster`: the valid-extent
geometry is first transformed into the catalog's CRS, then the catalog is
filtered with `ST_Within(geometry, transformed extent)`. -/
def clip_vector_filter (catalog : List LakeFeature) (validExtent : Finset (Int × Int))
    (toVectorCRS : (Int × Int) → (Int × Int)) : List LakeFeature :=
  let extentInVectorCRS := validExtent.image toVectorCRS
  catalog.filter (fun f => decide (f.geom ⊆ extentInVectorCRS))

/-- C8: the filter keeps exactly the catalog features wholly contained in
the valid extent as transformed into the catalog's CRS before the test; a
feature with any point outside the transformed extent is excluded, so no
lake crossing the valid-extent boundary reaches rasterization. -/
theorem containment_filter_correct (catalog : List LakeFeature)
    (validExtent : Finset (Int × Int)) (toVectorCRS : (Int × Int) → (Int × Int))
    (f : LakeFeature) :
    (f ∈ clip_vector_filter catalog validExtent toVectorCRS ↔
      f ∈ catalog ∧ f.geom ⊆ validExtent.image toVectorCRS) ∧
    ((∃ x ∈ f.geom, x ∉ validExtent.image toVectorCRS) →
      f ∉ clip_vector_filter catalog validExtent toVectorCRS) := by
  constructor
  · simp [clip_vector_filter, List.mem_filter]
  · rintro ⟨x, hx, hout⟩ hmem
    have hsub : f.geom ⊆ validExtent.image toVectorCRS := by
      have := (List.mem_filter.mp hmem).2
      simpa [clip_vector_filter] using this
    exact hout (hsub hx)

/-- C8 witness: a feature with one point outside the (identity-transformed)
valid extent is excluded from the filtered catalog. -/
theorem containment_filter_correct_witness :
    ({ fid := 7, geom := {(0, 0), (5, 5)}, area := 0, perimeter := 0 } : LakeFeature) ∉
      clip_vector_filter
        [{ fid := 7, geom := {(0, 0), (5, 5)}, area := 0, perimeter := 0 }]
        ({(0, 0), (0, 1)} : Finset (Int × Int)) id :=
  (containment_filter_correct
      [{ fid := 7, geom := {(0, 0), (5, 5)}, area := 0, perimeter := 0 }]
      ({(0, 0), (0, 1)} : Finset (Int × Int)) id
      { fid := 7, geom := {(0, 0), (5, 5)}, area := 0, perimeter := 0 }).2
    ⟨(5, 5), by decide, by decide⟩

/-! ### Image-timestamp parsing — `calculate_lake_statistics` lines 91–102

`date_part, time_part, *_ = img_name.split("_")` followed by
`datetime.strptime(date_part + time_part, "%Y%m%d%H%M%S")` in UTC, with
`image_timestamp = 0` on any exception.  CPython's `strptime` compiles the
format to the regular expression
`(?P<Y>\d\d\d\d)(?P<m>1[0-2]|0[1-9]|[1-9])(?P<d>3[0-1]|[1-2]\d|0[1-9]|[1-9]| [1-9])(?P<H>2[0-3]|[0-1]\d|\d)(?P<M>[0-5]\d|\d)(?P<S>6[0-1]|[0-5]\d|\d)`,
takes the backtracking-first match anchored at the start, raises when
unconverted characters remain, and then the `datetime` constructor validates
the calendar day and rejects seconds above 59.  Each field is embedded as
the ordered list of its structurally matching alternatives, the product in
backtracking order, and the engine's match as the head of that list. -/


/-- Value of a decimal digit character, `none` on a non-digit. -/
def digitVal (c : Char) : Option Nat :=
  if c.isDigit then some (c.toNat - 48) else none

/-- Python `str.split('_')` on the character list of the image name. -/
def splitU (cs : List Char) : List (List Char) :=
  match cs with
  | [] => [[]]
  | c :: rest =>
    match splitU rest with
    | g :: gs => if c = '_' then [] :: g :: gs else (c :: g) :: gs
    | [] => [[]]

/-- `%Y`: exactly four digits. -/
def matchY : List Char → Option (Nat × List Char)
  | a :: b :: c :: d :: rest =>
    match digitVal a, digitVal b, digitVal c, digitVal d with
    | some x, some y, some z, some w => some (1000 * x + 100 * y + 10 * z + w, rest)
    | _, _, _, _ => none
  | _ => none

/-- `%m` alternatives `1[0-2]|0[1-9]|[1-9]`, in regex order. -/
def altsM (s : List Char) : List (Nat × List Char) :=
  (match s with
   | a :: b :: r =>
     match digitVal a, digitVal b with
     | some x, some y =>
       (if x = 1 ∧ y ≤ 2 then [(10 + y, r)] else []) ++
       (if x = 0 ∧ 1 ≤ y then [(y, r)] else [])
     | _, _ => []
   | _ => []) ++
  (match s with
   | a :: r =>
     match digitVal a with
     | some x => if 1 ≤ x then [(x, r)] else []
     | none => []
   | _ => [])

/-- `%d` alternatives `3[0-1]|[1-2]\d|0[1-9]|[1-9]| [1-9]`, in regex order. -/
def altsD (s : List Char) : List (Nat × List Char) :=
  (match s with
   | a :: b :: r =>
     match digitVal a, digitVal b with
     | some x, some y =>
       (if x = 3 ∧ y ≤ 1 then [(30 + y, r)] else []) ++
       (if 1 ≤ x ∧ x ≤ 2 then [(10 * x + y, r)] else []) ++
       (if x = 0 ∧ 1 ≤ y then [(y, r)] else [])
     | _, _ => []
   | _ => []) ++
  (match s with
   | a :: r =>
     match digitVal a with
     | some x => if 1 ≤ x then [(x, r)] else []
     | none => []
   | _ => []) ++
  (match s with
   | a :: b :: r =>
     match digitVal b with
     | some y => if a = ' ' ∧ 1 ≤ y then [(y, r)] else []
     | none => []
   | _ => [])

/-- `%H` alternatives `2[0-3]|[0-1]\d|\d`, in regex order. -/
def altsH (s : List Char) : List (Nat × List Char) :=
  (match s with
   | a :: b :: r =>
     match digitVal a, digitVal b with
     | some x, some y =>
       (if x = 2 ∧ y ≤ 3 then [(20 + y, r)] else []) ++
       (if x ≤ 1 then [(10 * x + y, r)] else [])
     | _, _ => []
   | _ => []) ++
  (match s with
   | a :: r =>
     match digitVal a with
     | some x => [(x, r)]
     | none => []
   | _ => [])

/-- `%M` alternatives `[0-5]\d|\d`, in regex order. -/
def altsMin (s : List Char) : List (Nat × List Char) :=
  (match s with
   | a :: b :: r =>
     match digitVal a, digitVal b with
     | some x, some y => if x ≤ 5 then [(10 * x + y, r)] else []
     | _, _ => []
   | _ => []) ++
  (match s with
   | a :: r =>
     match digitVal a with
     | some x => [(x, r)]
     | none => []
   | _ => [])

/-- `%S` alternatives `6[0-1]|[0-5]\d|\d`, in regex order. -/
def altsS (s : List Char) : List (Nat × List Char) :=
  (match s with
   | a :: b :: r =>
     match digitVal a, digitVal b with
     | some x, some y =>
       (if x = 6 ∧ y ≤ 1 then [(60 + y, r)] else []) ++
       (if x ≤ 5 then [(10 * x + y, r)] else [])
     | _, _ => []
   | _ => []) ++
  (match s with
   | a :: r =>
     match digitVal a with
     | some x => [(x, r)]
     | none => []
   | _ => [])

/-- One complete match of the compiled `%Y%m%d%H%M%S` pattern: the six
field values and the unconsumed remainder of the string. -/
structure StrpMatch where
  year : Nat
  month : Nat
  day : Nat
  hour : Nat
  minute : Nat
  second : Nat
  rest : List Char
  deriving DecidableEq, Repr

/-- All complete pattern matches in backtracking order (fields left to
right, each field's alternatives in regex order); the engine returns the
head. -/
def strpMatches (s : List Char) : List StrpMatch :=
  match matchY s with
  | none => []
  | some (y, r1) =>
    (altsM r1).flatMap (fun mp =>
      (altsD mp.2).flatMap (fun dp =>
        (altsH dp.2).flatMap (fun hp =>
          (altsMin hp.2).flatMap (fun np =>
            (altsS np.2).map (fun sp =>
              ⟨y, mp.1, dp.1, hp.1, np.1, sp.1, sp.2⟩)))))

/-- Gregorian leap year (as in Python's `datetime`). -/
def isLeap (y : Nat) : Bool :=
  y % 4 == 0 && (y % 100 != 0 || y % 400 == 0)

/-- Days in a month, for the `datetime` constructor's day validation. -/
def daysInMonth (y m : Nat) : Nat :=
  if m = 2 then (if isLeap y then 29 else 28)
  else if m = 4 ∨ m = 6 ∨ m = 9 ∨ m = 11 then 30
  else 31

/-- Validation done by the `datetime(...)` constructor after the regex
match: `MINYEAR <= year`, day within the month, and seconds at most 59
(the regex itself already bounds month, hour and minute and admits 60/61
seconds which `datetime` rejects). -/
def validDatetime (t : StrpMatch) : Bool :=
  decide (1 ≤ t.year) && decide (1 ≤ t.day ∧ t.day ≤ daysInMonth t.year t.month) &&
    decide (t.second ≤ 59)

/-- Days from 1970-01-01 to the given proleptic-Gregorian date (the civil
calendar algorithm; all intermediate quantities are nonnegative for years
since 1). -/
def daysFromCivil (y m d : Nat) : Int :=
  let yi : Int := (y : Int) - (if m ≤ 2 then 1 else 0)
  let era : Int := yi / 400
  let yoe : Int := yi - era * 400
  let mp : Int := ((m : Int) + 9) % 12
  let doy : Int := (153 * mp + 2) / 5 + (d : Int) - 1
  let doe : Int := yoe * 365 + yoe / 4 - yoe / 100 + doy
  era * 146097 + doe - 719468

/-- `int(datetime_utc.timestamp())` for an aware UTC datetime: whole
seconds since the Unix epoch. -/
def unixSeconds (t : StrpMatch) : Int :=
  daysFromCivil t.year t.month t.day * 86400 +
    (t.hour : Int) * 3600 + (t.minute : Int) * 60 + (t.second : Int)

/-- `datetime.strptime(s, "%Y%m%d%H%M%S")`: first regex match, error if
unconverted data remains, then constructor validation. -/
def strptimeYmdHMS (s : List Char) : Option StrpMatch :=
  match (strpMatches s).head? with
  | none => none
  | some t =>
    if t.rest = [] then (if validDatetime t then some t else none) else none

/-- The `try` body: split the image name on `_`, require at least two
parts (the starred unpacking), parse `date_part + time_part`, and convert
to a Unix timestamp. -/
def parsedTimestamp (name : List Char) : Option Int :=
  match splitU name with
  | d :: t :: _ =>
    match strptimeYmdHMS (d ++ t) with
    | some tm => some (unixSeconds tm)
    | none => none
  | _ => none

/-- `image_timestamp`: the parsed Unix timestamp, or the fallback `0`
assigned by the `except` branch when anything above fails. -/
def imageTimestamp (name : List Char) : Int :=
  (parsedTimestamp name).getD 0


/-- C9: for every image name whose leading `YYYYMMDD_HHMMSS` prefix fails
to parse, the aggregator does not fail: the recorded Unix timestamp is the
fallback 0, and hence any two observations from unparseable image names
carry the same timestamp 0. -/
theorem unparseable_image_name_timestamp_zero (n1 n2 : List Char)
    (h1 : parsedTimestamp n1 = none) (h2 : parsedTimestamp n2 = none) :
    imageTimestamp n1 = 0 ∧ imageTimestamp n1 = imageTimestamp n2 := by
  simp [imageTimestamp, h1, h2]

/-- C9 witness: `VALIDATION.tif` (no underscore) and `notadate_foo_bar.tif`
(non-numeric date part) both fail to parse and share timestamp 0. -/
theorem unparseable_image_name_timestamp_zero_witness :
    imageTimestamp "VALIDATION.tif".data = 0 ∧
    imageTimestamp "VALIDATION.tif".data = imageTimestamp "notadate_foo_bar.tif".data :=
  unparseable_image_name_timestamp_zero "VALIDATION.tif".data "notadate_foo_bar.tif".data
    (by decide) (by decide)

/-! ### TimeSeriesStore — `update_lake_observation` in add_observation.py

The NetCDF file holds lake-level parallel arrays (`lake_id`, `area`,
`perimeter`, `study_site`, `total_pixels`, `count`) over the `lake`
dimension and observation-level parallel arrays (`lake_index`, `datetime`,
`prefix`, `usable_pixels`, `clear_percent`, `ice_pixels`, `ice_percent`,
`snow_pixels`, `snow_percent`, `water_pixels`, `water_percent`) over the
`obs` dimension; rows of one lake sit in the contiguous block starting at
the sum of the counts of the preceding lakes.  Parallel arrays of equal
length are embedded as lists of per-row records. -/

/-- One row of the observation-level arrays (the Python variable `prefix`
is embedded as the field `src_name`). -/
structure ObsRow where
  lake_index : Nat
  datetime : Int
  src_name : String
  usable_pixels : Int
  clear_percent : ℚ
  ice_pixels : Int
  ice_percent : ℚ
  snow_pixels : Int
  snow_percent : ℚ
  water_pixels : Int
  water_percent : ℚ
  deriving DecidableEq, Repr

/-- One row of the lake-level arrays. -/
structure LakeRow where
  lake_id : Int
  area : ℚ
  perimeter : ℚ
  study_site : String
  total_pixels : Int
  count : Nat
  deriving DecidableEq, Repr

/-- The whole NetCDF store. -/
structure Store where
  lakes : List LakeRow
  obs : List ObsRow
  deriving DecidableEq, Repr

/-- The `lake_data` dict for creating a new lake. -/
structure LakeData where
  area : ℚ
  perimeter : ℚ
  study_site : String
  total_pixels : Int
  deriving DecidableEq, Repr

/-- The `observation_data` dict (`datetime`, the image-name `prefix`
embedded as `src_name`, and the statistics columns). -/
structure ObservationData where
  datetime : Int
  src_name : String
  usable_pixels : Int
  clear_percent : ℚ
  ice_pixels : Int
  ice_percent : ℚ
  snow_pixels : Int
  snow_percent : ℚ
  water_pixels : Int
  water_percent : ℚ
  deriving DecidableEq, Repr

/-- The observation row written for lake index `li`: `lake_index` gets
`lake_idx`, every other observation variable gets its `observation_data`
entry. -/
def mkObsRow (li : Nat) (od : ObservationData) : ObsRow :=
  { lake_index := li
    datetime := od.datetime
    src_name := od.src_name
    usable_pixels := od.usable_pixels
    clear_percent := od.clear_percent
    ice_pixels := od.ice_pixels
    ice_percent := od.ice_percent
    snow_pixels := od.snow_pixels
    snow_percent := od.snow_percent
    water_pixels := od.water_pixels
    water_percent := od.water_percent }

/-- `np.where(arr == x)[0][0]`: index of the first matching element. -/
def npFindIdx {α : Type} (p : α → Bool) : List α → Option Nat
  | [] => none
  | x :: xs => if p x then some 0 else (npFindIdx p xs).map (· + 1)

/-- `np.insert(arr, pos, v)` for `pos ≤ arr.length` (also the semantics of
the per-element shift loop used for string variables). -/
def npInsert {α : Type} (l : List α) (pos : Nat) (v : α) : List α :=
  l.take pos ++ v :: l.drop pos

/-- Replace the element at one index by applying `f` (out-of-range indices
leave the list unchanged). -/
def updateAt {α : Type} : List α → Nat → (α → α) → List α
  | [], _, _ => []
  | x :: xs, 0, f => f x :: xs
  | x :: xs, n + 1, f => x :: updateAt xs n f

/-- `ds.variables['count'][lake_idx] += 1`. -/
def incrCount (l : List LakeRow) (k : Nat) : List LakeRow :=
  updateAt l k (fun r => { r with count := r.count + 1 })

/-- The lake-level row created for a new lake: the `lake_data` fields are
written to each lake-level variable and the new lake's `count` is
initialised to 0 (it is incremented at the end of the call). -/
def newLakeRow (lake_id : Int) (ld : LakeData) : LakeRow :=
  { lake_id := lake_id, area := ld.area, perimeter := ld.perimeter,
    study_site := ld.study_site, total_pixels := ld.total_pixels, count := 0 }

/-- `update_lake_observation(netcdf_file, lake_id, lake_data,
observation_data)`: create the lake if absent (error if absent with no
`lake_data`), skip entirely when the exact `datetime` already sits in the
lake's contiguous observation block, otherwise insert the new row at the
end of that block (`insert_pos = sum(counts[:lake_idx]) + counts[lake_idx]`,
or at the end of the table for a new lake) and increment the lake's
count. -/
def update_lake_observation (s : Store) (lake_id : Int) (lake_data : Option LakeData)
    (od : ObservationData) : Except String Store :=
  match npFindIdx (fun r => r.lake_id == lake_id) s.lakes with
  | none =>
    match lake_data with
    | none => Except.error "lake not found and no lake_data provided to create it"
    | some ld =>
      let lakeIdx := s.lakes.length
      let lakes1 := s.lakes ++ [newLakeRow lake_id ld]
      let obs1 := s.obs ++ [mkObsRow lakeIdx od]
      Except.ok { lakes := incrCount lakes1 lakeIdx, obs := obs1 }
  | some lakeIdx =>
    let counts := s.lakes.map LakeRow.count
    let start := (counts.take lakeIdx).sum
    let cnt := counts.getD lakeIdx 0
    let lakeDatetimes := ((s.obs.drop start).take cnt).map ObsRow.datetime
    if od.datetime ∈ lakeDatetimes then Except.ok s
    else
      Except.ok { lakes := incrCount s.lakes lakeIdx,
                  obs := npInsert s.obs (start + cnt) (mkObsRow lakeIdx od) }

/-- The index sequence of a contiguously grouped table: `count c` copies of
each lake index, in lake order, starting at `base`. -/
def indexSeqFrom (base : Nat) : List Nat → List Nat
  | [] => []
  | c :: cs => List.replicate c base ++ indexSeqFrom (base + 1) cs

/-- Increment the entry at one index of a list of counts. -/
def incrNat : List Nat → Nat → List Nat
  | [], _ => []
  | c :: cs, 0 => (c + 1) :: cs
  | c :: cs, n + 1 => c :: incrNat cs n

/-- The store invariant: the `lake_index` column equals the index sequence
of the per-lake counts, i.e. lake `i`'s observations occupy exactly the row
range `[sum(count[0..i-1]), sum(count[0..i-1]) + count[i])`. -/
def storeWF (s : Store) : Prop :=
  s.obs.map ObsRow.lake_index = indexSeqFrom 0 (s.lakes.map LakeRow.count)

instance (s : Store) : Decidable (storeWF s) := by
  unfold storeWF
  infer_instance

/-! Supporting lemmas about the list operations of the store embedding. -/

theorem length_indexSeqFrom (cs : List Nat) (b : Nat) :
    (indexSeqFrom b cs).length = cs.sum := by
  induction cs generalizing b with
  | nil => rfl
  | cons c cs ih => simp [indexSeqFrom, ih]

theorem npInsert_length_self {α : Type} (l : List α) (v : α) :
    npInsert l l.length v = l ++ [v] := by
  simp [npInsert, List.take_length, List.drop_length]

theorem npInsert_append_left {α : Type} (X Y : List α) (n : Nat) (v : α) :
    npInsert (X ++ Y) (X.length + n) v = X ++ npInsert Y n v := by
  simp [npInsert, List.take_append, List.drop_append]

theorem map_npInsert {α β : Type} (f : α → β) (l : List α) (p : Nat) (v : α) :
    (npInsert l p v).map f = npInsert (l.map f) p (f v) := by
  simp [npInsert, List.map_take, List.map_drop]

theorem sum_take_succ_getD (cs : List Nat) (k : Nat) (hk : k < cs.length) :
    (cs.take (k + 1)).sum = (cs.take k).sum + cs.getD k 0 := by
  induction cs generalizing k with
  | nil => simp at hk
  | cons c cs ih =>
    cases k with
    | zero => simp [List.getD]
    | succ k =>
      have hk' : k < cs.length := by simpa using hk
      simp only [List.take_succ_cons, List.sum_cons, ih k hk', List.getD_cons_succ]
      ring

theorem sum_take_le (cs : List Nat) (n : Nat) : (cs.take n).sum ≤ cs.sum := by
  calc (cs.take n).sum ≤ (cs.take n).sum + (cs.drop n).sum := Nat.le_add_right _ _
    _ = cs.sum := by rw [← List.sum_append, List.take_append_drop]

theorem npFindIdx_lt_length {α : Type} (p : α → Bool) (l : List α) (k : Nat)
    (h : npFindIdx p l = some k) : k < l.length := by
  induction l generalizing k with
  | nil => simp [npFindIdx] at h
  | cons x xs ih =>
    by_cases hp : p x
    · simp [npFindIdx, hp] at h
      simp only [List.length_cons]
      omega
    · simp only [npFindIdx, if_neg hp, Option.map_eq_some'] at h
      obtain ⟨j, hj, hjk⟩ := h
      have := ih j hj
      simp only [List.length_cons]
      omega

theorem length_updateAt {α : Type} (l : List α) (k : Nat) (f : α → α) :
    (updateAt l k f).length = l.length := by
  induction l generalizing k with
  | nil => rfl
  | cons x xs ih =>
    cases k with
    | zero => simp [updateAt]
    | succ k => simp [updateAt, ih k]

theorem take_incrNat (cs : List Nat) (k : Nat) : (incrNat cs k).take k = cs.take k := by
  induction cs generalizing k with
  | nil => simp [incrNat]
  | cons c cs ih =>
    cases k with
    | zero => simp
    | succ k => simp [incrNat, List.take_succ_cons, ih k]

theorem getD_incrNat_self (cs : List Nat) (k : Nat) (hk : k < cs.length) :
    (incrNat cs k).getD k 0 = cs.getD k 0 + 1 := by
  induction cs generalizing k with
  | nil => simp at hk
  | cons c cs ih =>
    cases k with
    | zero => simp [incrNat, List.getD]
    | succ k =>
      have hk' : k < cs.length := by simpa using hk
      simp [incrNat, List.getD] at ih ⊢
      exact ih k hk'

theorem getD_incrNat_ne (cs : List Nat) (k j : Nat) (hjk : j ≠ k) :
    (incrNat cs k).getD j 0 = cs.getD j 0 := by
  induction cs generalizing k j with
  | nil => simp [incrNat]
  | cons c cs ih =>
    cases k with
    | zero =>
      cases j with
      | zero => exact absurd rfl hjk
      | succ j => simp [incrNat, List.getD]
    | succ k =>
      cases j with
      | zero => simp [incrNat, List.getD]
      | succ j =>
        simp only [incrNat, List.getD_cons_succ]
        exact ih k j (by omega)

theorem indexSeqFrom_append (cs : List Nat) (b c : Nat) :
    indexSeqFrom b (cs ++ [c]) = indexSeqFrom b cs ++ List.replicate c (b + cs.length) := by
  induction cs generalizing b with
  | nil => simp [indexSeqFrom]
  | cons c0 cs ih =>
    rw [show (c0 :: cs) ++ [c] = c0 :: (cs ++ [c]) from rfl]
    simp only [indexSeqFrom, ih (b + 1), List.length_cons]
    rw [show b + 1 + cs.length = b + (cs.length + 1) from by omega, List.append_assoc]

theorem indexSeqFrom_incrNat (cs : List Nat) (k b : Nat) (hk : k < cs.length) :
    indexSeqFrom b (incrNat cs k) =
      npInsert (indexSeqFrom b cs) ((cs.take (k + 1)).sum) (b + k) := by
  induction cs generalizing k b with
  | nil => simp at hk
  | cons c cs ih =>
    cases k with
    | zero =>
      simp only [incrNat, indexSeqFrom]
      have hpos : (List.take (0 + 1) (c :: cs)).sum = (List.replicate c b).length + 0 := by
        simp
      rw [hpos, npInsert_append_left]
      simp [npInsert, List.replicate_succ', List.append_assoc]
    | succ k =>
      have hk' : k < cs.length := by simpa using hk
      simp only [incrNat, indexSeqFrom, ih k (b + 1) hk']
      have hpos : (List.take (k + 1 + 1) (c :: cs)).sum
          = (List.replicate c b).length + (List.take (k + 1) cs).sum := by
        simp [List.take_succ_cons]
      rw [hpos, npInsert_append_left]
      rw [show b + 1 + k = b + (k + 1) from by omega]

theorem npInsert_cons_succ {α : Type} (x : α) (xs : List α) (n : Nat) (v : α) :
    npInsert (x :: xs) (n + 1) v = x :: npInsert xs n v := by
  simp [npInsert, List.take_succ_cons]

theorem drop_npInsert {α : Type} (l : List α) (a c : Nat) (v : α) (h : a + c ≤ l.length) :
    (npInsert l (a + c) v).drop a = npInsert (l.drop a) c v := by
  induction a generalizing l with
  | zero => simp
  | succ a ih =>
    cases l with
    | nil => exact absurd h (by simp)
    | cons x xs =>
      rw [show a + 1 + c = (a + c) + 1 from by omega, npInsert_cons_succ]
      show (npInsert xs (a + c) v).drop a = npInsert (xs.drop a) c v
      exact ih xs (by simp only [List.length_cons] at h; omega)

theorem take_npInsert {α : Type} (l : List α) (c : Nat) (v : α) (h : c ≤ l.length) :
    (npInsert l c v).take (c + 1) = l.take c ++ [v] := by
  induction l generalizing c with
  | nil =>
    simp only [List.length_nil, Nat.le_zero] at h
    subst h
    simp [npInsert]
  | cons x xs ih =>
    cases c with
    | zero => simp [npInsert]
    | succ c =>
      rw [npInsert_cons_succ]
      simp only [List.take_succ_cons]
      rw [ih c (by simpa using h)]
      simp

theorem slice_npInsert {α : Type} (l : List α) (a c : Nat) (v : α) (h : a + c ≤ l.length) :
    ((npInsert l (a + c) v).drop a).take (c + 1) = (l.drop a).take c ++ [v] := by
  rw [drop_npInsert l a c v h, take_npInsert]
  simp only [List.length_drop]
  omega

theorem take_ge_length {α : Type} (l : List α) (n : Nat) (h : l.length ≤ n) :
    l.take n = l := by
  induction l generalizing n with
  | nil => simp
  | cons x xs ih =>
    cases n with
    | zero => simp at h
    | succ n => simp [List.take_succ_cons, ih n (by simpa using h)]

theorem take_append_self {α : Type} (l t : List α) : (l ++ t).take l.length = l := by
  induction l with
  | nil => simp
  | cons x xs ih => simp [List.take_succ_cons, ih]

theorem drop_append_self {α : Type} (l t : List α) : (l ++ t).drop l.length = t := by
  induction l with
  | nil => simp
  | cons x xs ih => simp [ih]

theorem getD_append_left {α : Type} (l t : List α) (j : Nat) (d : α) (h : j < l.length) :
    (l ++ t).getD j d = l.getD j d := by
  induction l generalizing j with
  | nil => simp at h
  | cons x xs ih =>
    cases j with
    | zero => simp
    | succ j =>
      simp only [List.cons_append, List.getD_cons_succ]
      exact ih j (by simpa using h)

theorem getD_append_length {α : Type} (l : List α) (a d : α) :
    (l ++ [a]).getD l.length d = a := by
  induction l with
  | nil => rfl
  | cons x xs ih =>
    simp only [List.cons_append, List.length_cons, List.getD_cons_succ]
    exact ih

theorem map_count_incrCount (l : List LakeRow) (k : Nat) :
    (incrCount l k).map LakeRow.count = incrNat (l.map LakeRow.count) k := by
  induction l generalizing k with
  | nil => rfl
  | cons x xs ih =>
    cases k with
    | zero => simp [incrCount, updateAt, incrNat]
    | succ k =>
      show x.count :: (incrCount xs k).map LakeRow.count
          = x.count :: incrNat (xs.map LakeRow.count) k
      rw [ih k]

theorem npFindIdx_incrCount (l : List LakeRow) (k : Nat) (lid : Int) :
    npFindIdx (fun r => r.lake_id == lid) (incrCount l k)
      = npFindIdx (fun r => r.lake_id == lid) l := by
  induction l generalizing k with
  | nil => rfl
  | cons x xs ih =>
    cases k with
    | zero => simp [incrCount, updateAt, npFindIdx]
    | succ k =>
      show npFindIdx (fun r => r.lake_id == lid) (x :: incrCount xs k)
          = npFindIdx (fun r => r.lake_id == lid) (x :: xs)
      simp only [npFindIdx, ih k]

theorem incrCount_append_last (l : List LakeRow) (x : LakeRow) :
    incrCount (l ++ [x]) l.length = l ++ [{ x with count := x.count + 1 }] := by
  induction l with
  | nil => rfl
  | cons y ys ih =>
    show y :: incrCount (ys ++ [x]) ys.length = y :: (ys ++ [{ x with count := x.count + 1 }])
    rw [ih]

theorem npFindIdx_append_none {α : Type} (p : α → Bool) (l : List α) (x : α)
    (h : npFindIdx p l = none) :
    npFindIdx p (l ++ [x]) = if p x then some l.length else none := by
  induction l with
  | nil => simp [npFindIdx]
  | cons y ys ih =>
    simp only [npFindIdx] at h
    by_cases hy : p y
    · simp [hy] at h
    · rw [if_neg hy] at h
      have h' : npFindIdx p ys = none := by
        cases hnp : npFindIdx p ys with
        | none => rfl
        | some j => rw [hnp] at h; cases h
      rw [show (y :: ys) ++ [x] = y :: (ys ++ [x]) from rfl]
      simp only [npFindIdx, if_neg hy, ih h']
      by_cases hx : p x
      · simp [hx]
      · simp [hx]

theorem get?_updateAt_self {α : Type} (l : List α) (k : Nat) (f : α → α) :
    (updateAt l k f).get? k = (l.get? k).map f := by
  induction l generalizing k with
  | nil => rfl
  | cons x xs ih =>
    cases k with
    | zero => rfl
    | succ k => exact ih k

/-- Inserting a row for lake `k` at the end of lake `k`'s contiguous block
and incrementing `count[k]` preserves the contiguity invariant. -/
theorem storeWF_insert (s : Store) (k : Nat) (od : ObservationData) (hwf : storeWF s)
    (hk : k < s.lakes.length) :
    storeWF { lakes := incrCount s.lakes k,
              obs := npInsert s.obs (((s.lakes.map LakeRow.count).take k).sum
                + (s.lakes.map LakeRow.count).getD k 0) (mkObsRow k od) } := by
  have hk' : k < (s.lakes.map LakeRow.count).length := by simpa using hk
  show (npInsert s.obs (((s.lakes.map LakeRow.count).take k).sum
        + (s.lakes.map LakeRow.count).getD k 0) (mkObsRow k od)).map ObsRow.lake_index
      = indexSeqFrom 0 ((incrCount s.lakes k).map LakeRow.count)
  rw [map_npInsert, map_count_incrCount, indexSeqFrom_incrNat _ _ _ hk',
    sum_take_succ_getD _ _ hk', hwf]
  simp [mkObsRow]

/-- Creating a new lake with `count` 1 and appending its first observation
row at the end of the table preserves the contiguity invariant. -/
theorem storeWF_newlake (s : Store) (lid : Int) (ld : LakeData) (od : ObservationData)
    (hwf : storeWF s) :
    storeWF { lakes := incrCount (s.lakes ++ [newLakeRow lid ld]) s.lakes.length,
              obs := s.obs ++ [mkObsRow s.lakes.length od] } := by
  show (s.obs ++ [mkObsRow s.lakes.length od]).map ObsRow.lake_index
      = indexSeqFrom 0
        ((incrCount (s.lakes ++ [newLakeRow lid ld]) s.lakes.length).map LakeRow.count)
  rw [incrCount_append_last]
  simp only [List.map_append, List.map_cons, List.map_nil, indexSeqFrom_append, hwf,
    mkObsRow, newLakeRow, List.length_map, Nat.zero_add]
  simp only [List.replicate, List.append_cancel_right_eq]
  exact hwf

theorem getD_ge_length {α : Type} (l : List α) (j : Nat) (d : α) (h : l.length ≤ j) :
    l.getD j d = d := by
  induction l generalizing j with
  | nil => simp
  | cons x xs ih =>
    cases j with
    | zero => simp at h
    | succ j =>
      simp only [List.getD_cons_succ]
      exact ih j (by simpa using h)

/-- C10: `update_lake_observation` keeps observation rows contiguously
grouped by lake: it preserves the invariant that the `lake_index` column is
the per-lake-count index sequence, and every call that adds an observation
does so by inserting the new row at the end of the target lake's contiguous
block (the end of the table for a newly created lake, whose `lake_index` is
the new lake's index) while incrementing exactly that lake's count by 1. -/
theorem update_preserves_contiguity (s : Store) (lid : Int) (ld : Option LakeData)
    (od : ObservationData) (s' : Store) (hwf : storeWF s)
    (h : update_lake_observation s lid ld od = Except.ok s') :
    storeWF s' ∧
    (s' = s ∨ ∃ k, k < s'.lakes.length ∧
      (s'.lakes.map LakeRow.count).getD k 0 = (s.lakes.map LakeRow.count).getD k 0 + 1 ∧
      (∀ j, j ≠ k → (s'.lakes.map LakeRow.count).getD j 0
        = (s.lakes.map LakeRow.count).getD j 0) ∧
      s'.obs = npInsert s.obs (((s.lakes.map LakeRow.count).take (k + 1)).sum)
        (mkObsRow k od)) := by
  have hlen_obs : s.obs.length = (s.lakes.map LakeRow.count).sum := by
    have h0 := congrArg List.length hwf
    simpa [length_indexSeqFrom] using h0
  cases hfind : npFindIdx (fun r => r.lake_id == lid) s.lakes with
  | none =>
    cases ld with
    | none => simp [update_lake_observation, hfind] at h
    | some ld0 =>
      simp only [update_lake_observation, hfind, Except.ok.injEq] at h
      subst h
      refine ⟨storeWF_newlake s lid ld0 od hwf, Or.inr ⟨s.lakes.length, ?_, ?_, ?_, ?_⟩⟩
      · show s.lakes.length < (incrCount (s.lakes ++ [newLakeRow lid ld0]) s.lakes.length).length
        simp only [incrCount, length_updateAt, List.length_append, List.length_cons,
          List.length_nil]
        omega
      · rw [incrCount_append_last, List.map_append]
        simp only [List.map_cons, List.map_nil]
        rw [show s.lakes.length = (s.lakes.map LakeRow.count).length
            from (List.length_map _ _).symm]
        rw [getD_append_length, getD_ge_length _ _ _ (Nat.le_refl _)]
        simp [newLakeRow]
      · intro j hj
        rw [incrCount_append_last, List.map_append]
        simp only [List.map_cons, List.map_nil]
        rcases Nat.lt_or_ge j s.lakes.length with hlt | hge
        · exact getD_append_left _ _ _ _ (by simpa using hlt)
        · have hgt : s.lakes.length < j := by omega
          rw [getD_ge_length _ _ _ (by simp; omega), getD_ge_length _ _ _ (by simp; omega)]
      · show s.obs ++ [mkObsRow s.lakes.length od]
            = npInsert s.obs (((s.lakes.map LakeRow.count).take (s.lakes.length + 1)).sum)
              (mkObsRow s.lakes.length od)
        rw [take_ge_length _ _ (by simp), ← hlen_obs, npInsert_length_self]
  | some k =>
    have hk : k < s.lakes.length := npFindIdx_lt_length _ _ _ hfind
    have hk' : k < (s.lakes.map LakeRow.count).length := by simpa using hk
    by_cases hmem : od.datetime ∈
        (((s.obs.drop ((s.lakes.map LakeRow.count).take k).sum).take
          ((s.lakes.map LakeRow.count).getD k 0)).map ObsRow.datetime)
    · simp only [update_lake_observation, hfind, if_pos hmem, Except.ok.injEq] at h
      subst h
      exact ⟨hwf, Or.inl rfl⟩
    · simp only [update_lake_observation, hfind, if_neg hmem, Except.ok.injEq] at h
      subst h
      refine ⟨storeWF_insert s k od hwf hk, Or.inr ⟨k, ?_, ?_, ?_, ?_⟩⟩
      · show k < (incrCount s.lakes k).length
        simp only [incrCount, length_updateAt]
        exact hk
      · rw [map_count_incrCount]
        exact getD_incrNat_self _ _ hk'
      · intro j hj
        rw [map_count_incrCount]
        exact getD_incrNat_ne _ _ _ hj
      · show npInsert s.obs (((s.lakes.map LakeRow.count).take k).sum
            + (s.lakes.map LakeRow.count).getD k 0) (mkObsRow k od)
            = npInsert s.obs (((s.lakes.map LakeRow.count).take (k + 1)).sum) (mkObsRow k od)
        rw [sum_take_succ_getD _ _ hk']

/-- When the exact datetime is already present in the lake's contiguous
block, `update_lake_observation` returns the store unchanged. -/
theorem update_skips_when_datetime_present (s1 : Store) (lid : Int) (ld : Option LakeData)
    (od : ObservationData) (k : Nat)
    (hfind1 : npFindIdx (fun r => r.lake_id == lid) s1.lakes = some k)
    (hmem : od.datetime ∈ (((s1.obs.drop ((s1.lakes.map LakeRow.count).take k).sum).take
      ((s1.lakes.map LakeRow.count).getD k 0)).map ObsRow.datetime)) :
    update_lake_observation s1 lid ld od = Except.ok s1 := by
  simp only [update_lake_observation, hfind1, if_pos hmem]

/-- C1: the upsert is idempotent — after one successful
`update_lake_observation` with a given `(lake_id, datetime)` and statistics,
running the identical call again is skipped entirely (the exact timestamp is
found in the lake's block) and returns the store unchanged: series lengths,
counts, and all per-lake variables are exactly those after the first call. -/
theorem record_observation_idempotent (s : Store) (lid : Int) (ld : Option LakeData)
    (od : ObservationData) (s1 : Store) (hwf : storeWF s)
    (h : update_lake_observation s lid ld od = Except.ok s1) :
    update_lake_observation s1 lid ld od = Except.ok s1 := by
  have hlen_obs : s.obs.length = (s.lakes.map LakeRow.count).sum := by
    have h0 := congrArg List.length hwf
    simpa [length_indexSeqFrom] using h0
  cases hfind : npFindIdx (fun r => r.lake_id == lid) s.lakes with
  | none =>
    cases ld with
    | none => simp [update_lake_observation, hfind] at h
    | some ld0 =>
      simp only [update_lake_observation, hfind, Except.ok.injEq] at h
      subst h
      have hrow1 : incrCount (s.lakes ++ [newLakeRow lid ld0]) s.lakes.length
          = s.lakes ++ [{ newLakeRow lid ld0 with count := (newLakeRow lid ld0).count + 1 }] :=
        incrCount_append_last _ _
      have hfind1 : npFindIdx (fun r => r.lake_id == lid)
          (incrCount (s.lakes ++ [newLakeRow lid ld0]) s.lakes.length)
          = some s.lakes.length := by
        rw [hrow1, npFindIdx_append_none _ _ _ hfind]
        simp [newLakeRow]
      refine update_skips_when_datetime_present _ lid (some ld0) od s.lakes.length hfind1 ?_
      show od.datetime ∈
        (((s.obs ++ [mkObsRow s.lakes.length od]).drop
            ((((incrCount (s.lakes ++ [newLakeRow lid ld0]) s.lakes.length).map
              LakeRow.count).take s.lakes.length).sum)).take
          (((incrCount (s.lakes ++ [newLakeRow lid ld0]) s.lakes.length).map
            LakeRow.count).getD s.lakes.length 0)).map ObsRow.datetime
      rw [hrow1, List.map_append]
      simp only [List.map_cons, List.map_nil]
      rw [show s.lakes.length = (s.lakes.map LakeRow.count).length
          from (List.length_map _ _).symm]
      rw [take_append_self, getD_append_length, ← hlen_obs, drop_append_self]
      simp [newLakeRow, mkObsRow]
  | some k =>
    have hk : k < s.lakes.length := npFindIdx_lt_length _ _ _ hfind
    have hk' : k < (s.lakes.map LakeRow.count).length := by simpa using hk
    by_cases hmem : od.datetime ∈
        (((s.obs.drop ((s.lakes.map LakeRow.count).take k).sum).take
          ((s.lakes.map LakeRow.count).getD k 0)).map ObsRow.datetime)
    · simp only [update_lake_observation, hfind, if_pos hmem, Except.ok.injEq] at h
      subst h
      exact update_skips_when_datetime_present _ lid ld od k hfind hmem
    · simp only [update_lake_observation, hfind, if_neg hmem, Except.ok.injEq] at h
      subst h
      have hfind1 : npFindIdx (fun r => r.lake_id == lid) (incrCount s.lakes k) = some k := by
        rw [npFindIdx_incrCount]
        exact hfind
      refine update_skips_when_datetime_present _ lid ld od k hfind1 ?_
      show od.datetime ∈
        (((npInsert s.obs (((s.lakes.map LakeRow.count).take k).sum
              + (s.lakes.map LakeRow.count).getD k 0) (mkObsRow k od)).drop
            ((((incrCount s.lakes k).map LakeRow.count).take k).sum)).take
          (((incrCount s.lakes k).map LakeRow.count).getD k 0)).map ObsRow.datetime
      rw [map_count_incrCount, take_incrNat, getD_incrNat_self _ _ hk']
      have hle : ((s.lakes.map LakeRow.count).take k).sum
          + (s.lakes.map LakeRow.count).getD k 0 ≤ s.obs.length := by
        rw [hlen_obs, ← sum_take_succ_getD _ _ hk']
        exact sum_take_le _ _
      rw [slice_npInsert _ _ _ _ hle]
      simp [mkObsRow]

/-- Concrete lake-creation data for witnesses. -/
def exLakeData : LakeData :=
  { area := 100, perimeter := 40, study_site := "YKD", total_pixels := 10 }

/-- A concrete observation. -/
def exObsData : ObservationData :=
  { datetime := 1622723696, src_name := "20210603_123456_img", usable_pixels := 8,
    clear_percent := 80, ice_pixels := 5, ice_percent := 62, snow_pixels := 0,
    snow_percent := 0, water_pixels := 3, water_percent := 38 }

/-- A second observation of the same lake, at a later timestamp. -/
def exObsData2 : ObservationData :=
  { datetime := 1625056496, src_name := "20210630_123456_img", usable_pixels := 10,
    clear_percent := 100, ice_pixels := 0, ice_percent := 0, snow_pixels := 0,
    snow_percent := 0, water_pixels := 10, water_percent := 100 }

/-- The empty store. -/
def exStore0 : Store := { lakes := [], obs := [] }

/-- The store after recording `exObsData` for new lake 5. -/
def exStore1 : Store :=
  { lakes := [{ lake_id := 5, area := 100, perimeter := 40, study_site := "YKD",
                total_pixels := 10, count := 1 }],
    obs := [{ lake_index := 0, datetime := 1622723696, src_name := "20210603_123456_img",
              usable_pixels := 8, clear_percent := 80, ice_pixels := 5, ice_percent := 62,
              snow_pixels := 0, snow_percent := 0, water_pixels := 3, water_percent := 38 }] }

/-- The store after additionally recording `exObsData2` for lake 5. -/
def exStore2 : Store :=
  { lakes := [{ lake_id := 5, area := 100, perimeter := 40, study_site := "YKD",
                total_pixels := 10, count := 2 }],
    obs := [{ lake_index := 0, datetime := 1622723696, src_name := "20210603_123456_img",
              usable_pixels := 8, clear_percent := 80, ice_pixels := 5, ice_percent := 62,
              snow_pixels := 0, snow_percent := 0, water_pixels := 3, water_percent := 38 },
            { lake_index := 0, datetime := 1625056496, src_name := "20210630_123456_img",
              usable_pixels := 10, clear_percent := 100, ice_pixels := 0, ice_percent := 0,
              snow_pixels := 0, snow_percent := 0, water_pixels := 10,
              water_percent := 100 }] }

/-- C1 witness: recording `exObsData` into the empty store creates lake 5
with one observation; running the identical call again returns exactly the
same store. -/
theorem record_observation_idempotent_witness :
    update_lake_observation exStore1 5 (some exLakeData) exObsData = Except.ok exStore1 :=
  record_observation_idempotent exStore0 5 (some exLakeData) exObsData exStore1
    (by decide) (by rfl)

/-- C10 witness: adding a second observation for lake 5 keeps the
contiguity invariant. -/
theorem update_preserves_contiguity_witness : storeWF exStore2 :=
  (update_preserves_contiguity exStore1 5 (some exLakeData) exObsData2 exStore2
    (by decide) (by rfl)).1

/-! ### The variable-length NetCDF store — `add_observation` and the
`total_pixels` consistency check in calculate_ice_cover_statistics_per_lake.py

This store keeps one entry per lake: scalar attributes (`lake_id`, `area`,
`perimeter`, `total_pixels`, `study_site`, `obs_count`) and variable-length
series (`unix_time`, `usable_pixels`, `clear_percent`, one `{cls}_pixels`
and `{cls}_percent` pair per configured class, and the comma-separated
image-name list).  `calculate_lake_statistics` consults the stored
`total_pixels` before building a lake's statistics: on a mismatch it prints
an `ERROR` diagnostic and always uses the stored value. -/

/-- One lake's entry in the variable-length store. -/
structure VLake where
  lake_id : Int
  area : ℚ
  perimeter : ℚ
  total_pixels : Nat
  study_site : String
  obs_count : Nat
  unix_time : List Int
  usable_pixels : List Nat
  clear_percent : List ℚ
  cls_pixels : List (String × List Nat)
  cls_percent : List (String × List ℚ)
  image_names_csv : String
  deriving DecidableEq, Repr

/-- The variable-length store. -/
structure VStore where
  lakes : List VLake
  deriving DecidableEq, Repr

/-- `ds.variables[f'{cls}_pixels'][idx] = np.append(..., v)`: append `v` to
the series of the named class. -/
def appendSeries {α : Type} (l : List (String × List α)) (key : String) (v : α) :
    List (String × List α) :=
  l.map (fun p => if p.1 = key then (p.1, p.2 ++ [v]) else p)

/-- The existing-lake branch of `add_observation`: bump `obs_count`, append
the timestamp, `usable_pixels` and `clear_percent`, append each class's
count and recomputed percent, and extend the comma-separated image list. -/
def vAppendObs (r : VLake) (timestamp : Int) (stats : LakeStats) (image_name : String) :
    VLake :=
  { r with
    obs_count := r.obs_count + 1
    unix_time := r.unix_time ++ [timestamp]
    usable_pixels := r.usable_pixels ++ [stats.usable_pixels]
    clear_percent := r.clear_percent ++ [stats.clear_percent]
    cls_pixels := stats.class_counts.foldl (fun acc c => appendSeries acc c.1 c.2) r.cls_pixels
    cls_percent := stats.class_counts.foldl
      (fun acc c => appendSeries acc c.1 (classPercent c.2 stats.usable_pixels)) r.cls_percent
    image_names_csv := if r.image_names_csv = "" then image_name
      else r.image_names_csv ++ "," ++ image_name }

/-- The new-lake branch of `add_observation`: initialise the scalars and
every variable-length series with a single entry. -/
def vNewLake (lake_id : Int) (timestamp : Int) (study_site : String) (stats : LakeStats)
    (image_name : String) : VLake :=
  { lake_id := lake_id, area := stats.area, perimeter := stats.perimeter,
    total_pixels := stats.total_pixels, study_site := study_site, obs_count := 1,
    unix_time := [timestamp], usable_pixels := [stats.usable_pixels],
    clear_percent := [stats.clear_percent],
    cls_pixels := stats.class_counts.map (fun c => (c.1, [c.2])),
    cls_percent := stats.class_counts.map
      (fun c => (c.1, [classPercent c.2 stats.usable_pixels])),
    image_names_csv := image_name }

/-- `add_observation(nc_path, lake_id, timestamp, study_site, stats,
image_name)`: append to the existing lake found by `lake_id`, or create a
new one. -/
def add_observation (s : VStore) (lake_id : Int) (timestamp : Int) (study_site : String)
    (stats : LakeStats) (image_name : String) : VStore :=
  match npFindIdx (fun r => r.lake_id == lake_id) s.lakes with
  | some idx => ⟨updateAt s.lakes idx (fun r => vAppendObs r timestamp stats image_name)⟩
  | none => ⟨s.lakes ++ [vNewLake lake_id timestamp study_site stats image_name]⟩

/-- The `total_pixels` stored for a lake, when the lake already exists
(`lake_ids_nc = ds_check.variables['lake_id'][:]; if lid in lake_ids_nc:
existing_tot = int(ds_check.variables['total_pixels'][idx0])`). -/
def storedTotal (s : VStore) (lid : Int) : Option Nat :=
  match npFindIdx (fun r => r.lake_id == lid) s.lakes with
  | some idx => (s.lakes.get? idx).map VLake.total_pixels
  | none => none

/-- The per-lake body of the `for lid in unique_ids` loop of
`calculate_lake_statistics`: compute `total_pix = mask.sum()`, override it
with the stored total when the lake exists (printing the `ERROR` diagnostic
when the two differ — returned here as the Boolean flag), build the
statistics from the classified values under the mask, and hand them to
`add_observation`. -/
def calculate_lake_step (s : VStore) (lid : Int) (maskCount : Nat) (vals : List Int)
    (nodata : Option Int) (classNames : List String) (timestamp : Int)
    (study_site : String) (area perimeter : ℚ) (image_name : String) : VStore × Bool :=
  let tw : Nat × Bool :=
    match storedTotal s lid with
    | some t => (t, t != maskCount)
    | none => (maskCount, false)
  let stats := calculate_stats vals nodata classNames tw.1 area perimeter
  (add_observation s lid timestamp study_site stats image_name, tw.2)

/-- C7: when lake `lid` already has a record with `total_pixels = T`, a new
observation leaves that record's `total_pixels` untouched and equal to `T`,
the new observation's statistics are computed from the stored `T` (not from
the freshly computed mask count), and the diagnostic is emitted exactly when
the fresh count differs from `T` — the stored value is never silently
replaced. -/
theorem total_pixels_consistency (s : VStore) (lid : Int) (k : Nat) (r0 : VLake)
    (hk : npFindIdx (fun r => r.lake_id == lid) s.lakes = some k)
    (hr : s.lakes.get? k = some r0)
    (maskCount : Nat) (vals : List Int) (nodata : Option Int) (classNames : List String)
    (timestamp : Int) (study_site : String) (area perimeter : ℚ) (image_name : String) :
    ((calculate_lake_step s lid maskCount vals nodata classNames timestamp study_site
        area perimeter image_name).1).lakes.get? k
      = some (vAppendObs r0 timestamp
          (calculate_stats vals nodata classNames r0.total_pixels area perimeter)
          image_name) ∧
    (vAppendObs r0 timestamp
        (calculate_stats vals nodata classNames r0.total_pixels area perimeter)
        image_name).total_pixels = r0.total_pixels ∧
    (calculate_lake_step s lid maskCount vals nodata classNames timestamp study_site
        area perimeter image_name).2 = (r0.total_pixels != maskCount) := by
  have hst : storedTotal s lid = some r0.total_pixels := by
    simp only [storedTotal, hk]
    rw [hr]
    rfl
  refine ⟨?_, rfl, ?_⟩
  · simp only [calculate_lake_step, hst, add_observation, hk]
    rw [get?_updateAt_self, hr]
    rfl
  · simp only [calculate_lake_step, hst]

/-- One concrete lake entry with `total_pixels = 10`. -/
def exVLake : VLake :=
  { lake_id := 7, area := 100, perimeter := 40, total_pixels := 10, study_site := "YF",
    obs_count := 1, unix_time := [1622723696], usable_pixels := [8],
    clear_percent := [80], cls_pixels := [("ice", [5]), ("snow", [0]), ("water", [3])],
    cls_percent := [("ice", [62]), ("snow", [0]), ("water", [38])],
    image_names_csv := "img1" }

/-- A store holding just `exVLake`. -/
def exVStore : VStore := ⟨[exVLake]⟩

/-- C7 witness: re-deriving lake 7's footprint as 12 pixels while the store
holds 10 raises the diagnostic flag (and the record keeps `total_pixels`
10). -/
theorem total_pixels_consistency_witness :
    (calculate_lake_step exVStore 7 12 [1, 1, 1] (some (-9999)) ["Ice", "Snow", "Water"]
        1625056496 "YF" 100 40 "img2").2 = (exVLake.total_pixels != 12) ∧
    (vAppendObs exVLake 1625056496
        (calculate_stats [1, 1, 1] (some (-9999)) ["Ice", "Snow", "Water"]
          exVLake.total_pixels 100 40)
        "img2").total_pixels = exVLake.total_pixels :=
  ⟨(total_pixels_consistency exVStore 7 0 exVLake (by decide) (by rfl)
      12 [1, 1, 1] (some (-9999)) ["Ice", "Snow", "Water"]
      1625056496 "YF" 100 40 "img2").2.2,
    (total_pixels_consistency exVStore 7 0 exVLake (by decide) (by rfl)
      12 [1, 1, 1] (some (-9999)) ["Ice", "Snow", "Water"]
      1625056496 "YF" 100 40 "img2").2.1⟩
